import Mathlib

/-!
Shallow embedding of the ICP Substrate wallet canister (`src/index.ts`).

The canister keeps three durable slots (salt, owner, per-caller public-key
cache) and exposes the operations `initializeSalt`, `getPublicKey`,
`getAddressData`, `sign`, `signWithPublicKey`, `signWithHex`, `isInitialized`
and `clearPublicKeyCache`.  External calls to the IC management canister
(raw_rand, schnorr_public_key, sign_with_schnorr) are modelled by an
environment of oracles; each operation returns its result (or the error it
throws), the post-state, and the list of provider calls it performed.
-/

set_option maxHeartbeats 1000000

namespace SubstrateWallet

/-- A caller identity (an IC principal), carrying its textual form
(`Principal.toText()`) and its raw byte form (`Principal.toUint8Array()`). -/
structure Principal where
  text : String
  bytes : List Nat
  deriving DecidableEq, Repr

/-- Source constant ANONYMOUS_PRINCIPAL_TEXT, the anonymous principal text. -/
def ANONYMOUS_PRINCIPAL_TEXT : String := "2vxsx-fae"

/-- Source constant MAX_MESSAGE_BYTES = 1024 * 1024, the 1MB limit. -/
def MAX_MESSAGE_BYTES : Nat := 1024 * 1024

/-- Source constant MIN_MESSAGE_BYTES = 1, rejecting empty messages. -/
def MIN_MESSAGE_BYTES : Nat := 1

/-- Source constant SIGN_CYCLES, the cycle budget attached to sign calls. -/
def SIGN_CYCLES : Nat := 30000000000

/-- Lexicographic order on the byte forms, used only to pick which of the
three strings `Principal.compareTo` returns. -/
def bytesLt : List Nat → List Nat → Bool
  | [], [] => false
  | [], _ :: _ => true
  | _ :: _, [] => false
  | a :: as, b :: bs => if a < b then true else if b < a then false else bytesLt as bs

/-- Models Principal.compareTo from the agent library: it returns one of
the STRINGS lt, eq, gt — never a boolean. -/
def Principal.compareTo (a b : Principal) : String :=
  if a.bytes = b.bytes then "eq"
  else if bytesLt a.bytes b.bytes then "lt"
  else "gt"

/-- JavaScript truthiness of a string: exactly the non-empty strings are
truthy. -/
def jsStrTruthy (s : String) : Bool := s != ""

/-- The owner test used by initializeSalt (line 72) and clearPublicKeyCache
(line 294), the disjunction of owner-missing and NOT-compareTo.  Since
compareTo returns a non-empty string, the second disjunct is always false
in JavaScript. -/
def ownerCheckFails (caller : Principal) (owner : Option Principal) : Bool :=
  match owner with
  | none => true
  | some o => !(jsStrTruthy (caller.compareTo o))

/-- The error taxonomy: one constructor per distinct throw site / error kind
of the source (plus the soft `false` return of `clearPublicKeyCache`, which
is not an error).  The "Message must be a Uint8Array" throw of
`validateMessage` is unrepresentable here because messages are byte lists by
type. -/
inductive CanisterError where
  /-- Thrown as: Anonymous callers are not allowed. -/
  | Unauthenticated
  /-- Thrown as: Only the canister owner can initialize the salt. -/
  | NotOwner
  /-- Thrown as: Salt has already been initialized. -/
  | AlreadyInitialized
  /-- Thrown as: Canister salt not initialized. -/
  | SaltNotInitialized
  /-- Thrown as: Message must be at least 1 byte(s). -/
  | EmptyMessage
  /-- Thrown as: Message exceeds maximum size of 1048576 bytes. -/
  | MessageTooLarge
  /-- Thrown as: Network prefix must be between 0 and 255. -/
  | InvalidNetworkPrefix
  /-- Thrown as: Failed to (get randomness / get public key / sign message),
  a transport/status failure where response.ok is false. -/
  | ProviderError
  /-- Thrown as: Invalid (randomness / public key / signature) response or
  length — the provider replied but with wrong shape or length. -/
  | MalformedResponse
  deriving DecidableEq, Repr

/-- A response from the management canister as the code observes it:
the field ok is response.ok; payload is the relevant JSON field
(responseJson itself for raw_rand, responseJson.public_key for
schnorr_public_key, responseJson.signature for sign_with_schnorr),
none when that field is missing, falsy, or not an array, and some arr when
it is an array of numbers. -/
structure ProviderResponse where
  ok : Bool
  payload : Option (List Nat)
  deriving DecidableEq, Repr

/-- One outbound call to the management canister. -/
inductive ProviderCall where
  | rawRand
  | schnorrPublicKey (derivationPath : List (List Nat))
  | signWithSchnorr (message : List Nat) (derivationPath : List (List Nat))
  deriving DecidableEq, Repr

/-- The environment of provider oracles: what each management-canister fetch
would answer.  The schnorr_public_key oracle is keyed by the derivation path,
the sign_with_schnorr oracle by message and derivation path. -/
structure Env where
  rawRandResp : ProviderResponse
  pubKeyResp : List (List Nat) → ProviderResponse
  signResp : List Nat → List (List Nat) → ProviderResponse

/-- The public-key cache, an association list keyed by the caller's
principal text, value the cached 32-byte key (durable map index 2). -/
abbrev Cache := List (String × List Nat)

/-- Models publicKeyCache.get(k). -/
def cacheGet (m : Cache) (k : String) : Option (List Nat) :=
  (m.find? (fun p => p.1 == k)).map Prod.snd

/-- Models publicKeyCache.remove(k). -/
def cacheRemove (m : Cache) (k : String) : Cache :=
  m.filter (fun p => p.1 != k)

/-- Models publicKeyCache.insert(k, v), an upsert. -/
def cacheInsert (m : Cache) (k : String) (v : List Nat) : Cache :=
  (k, v) :: cacheRemove m k

/-- The durable state: the salt slot (map index 0), the owner slot
(map index 1), and the public-key cache (map index 2). -/
structure CanisterState where
  canisterSalt : Option (List Nat)
  canisterOwner : Option Principal
  publicKeyCache : Cache
  deriving DecidableEq, Repr

instance {ε α : Type} [DecidableEq ε] [DecidableEq α] : DecidableEq (Except ε α) :=
  fun a b =>
    match a, b with
    | .error e1, .error e2 =>
      if h : e1 = e2 then .isTrue (by rw [h]) else .isFalse (fun hab => h (by cases hab; rfl))
    | .ok v1, .ok v2 =>
      if h : v1 = v2 then .isTrue (by rw [h]) else .isFalse (fun hab => h (by cases hab; rfl))
    | .error _, .ok _ => .isFalse (fun hab => Except.noConfusion hab)
    | .ok _, .error _ => .isFalse (fun hab => Except.noConfusion hab)

/-- Result of running one operation: the value returned or error thrown, the
post-state, and the provider calls made (in order). -/
structure OpResult (α : Type) where
  result : Except CanisterError α
  state : CanisterState
  calls : List ProviderCall
  deriving DecidableEq, Repr

/-- Embeds getAuthenticatedCaller() (lines 36–42): rejects the anonymous
principal, otherwise returns the caller. -/
def getAuthenticatedCaller (caller : Principal) : Except CanisterError Principal :=
  if caller.text = ANONYMOUS_PRINCIPAL_TEXT then .error .Unauthenticated
  else .ok caller

/-- Embeds validateMessage(message) (lines 45–55).  The instanceof guard
cannot fire here because the argument is a byte list by type. -/
def validateMessage (message : List Nat) : Except CanisterError Unit :=
  if message.length < MIN_MESSAGE_BYTES then .error .EmptyMessage
  else if message.length > MAX_MESSAGE_BYTES then .error .MessageTooLarge
  else .ok ()

/-- Models new Uint8Array(arr): each element is coerced to a byte. -/
def toUint8Array (arr : List Nat) : List Nat := arr.map (· % 256)

/-- Embeds initializeSalt() (lines 67–107). -/
def initializeSalt (env : Env) (caller : Principal) (s : CanisterState) :
    OpResult String :=
  match getAuthenticatedCaller caller with
  | .error e => ⟨.error e, s, []⟩
  | .ok c =>
    if ownerCheckFails c s.canisterOwner then ⟨.error .NotOwner, s, []⟩
    else
      match s.canisterSalt with
      | some _ => ⟨.error .AlreadyInitialized, s, []⟩
      | none =>
        let resp := env.rawRandResp
        if !resp.ok then ⟨.error .ProviderError, s, [.rawRand]⟩
        else
          match resp.payload with
          | none => ⟨.error .MalformedResponse, s, [.rawRand]⟩
          | some arr =>
            if arr.length < 32 then ⟨.error .MalformedResponse, s, [.rawRand]⟩
            else
              ⟨.ok "Salt initialized successfully with secure randomness",
               { s with canisterSalt := some (toUint8Array arr) }, [.rawRand]⟩

/-- Embeds getPublicKeyForCaller() (lines 110–164), the body of getPublicKey. -/
def getPublicKeyForCaller (env : Env) (caller : Principal) (s : CanisterState) :
    OpResult (List Nat) :=
  match getAuthenticatedCaller caller with
  | .error e => ⟨.error e, s, []⟩
  | .ok c =>
    let callerKey := c.text
    match cacheGet s.publicKeyCache callerKey with
    | some cached => ⟨.ok cached, s, []⟩
    | none =>
      match s.canisterSalt with
      | none => ⟨.error .SaltNotInitialized, s, []⟩
      | some salt =>
        let derivationPath := [salt, c.bytes]
        let resp := env.pubKeyResp derivationPath
        if !resp.ok then ⟨.error .ProviderError, s, [.schnorrPublicKey derivationPath]⟩
        else
          match resp.payload with
          | none => ⟨.error .MalformedResponse, s, [.schnorrPublicKey derivationPath]⟩
          | some arr =>
            if arr.length ≠ 32 then
              ⟨.error .MalformedResponse, s, [.schnorrPublicKey derivationPath]⟩
            else
              let publicKey := toUint8Array arr
              ⟨.ok publicKey,
               { s with publicKeyCache := cacheInsert s.publicKeyCache callerKey publicKey },
               [.schnorrPublicKey derivationPath]⟩

/-- Embeds getAddressData (lines 171–188).  Note the source fetches
the public key FIRST and validates the prefix afterwards. -/
def getAddressData (env : Env) (caller : Principal) ( networkPrefix : Int)
    (s : CanisterState) : OpResult (List Nat × Int) :=
  let r := getPublicKeyForCaller env caller s
  match r.result with
  | .error e => ⟨.error e, r.state, r.calls⟩
  | .ok publicKey =>
    if networkPrefix < 0 ∨ networkPrefix > 255 then
      ⟨.error .InvalidNetworkPrefix, r.state, r.calls⟩
    else ⟨.ok (publicKey, networkPrefix), r.state, r.calls⟩

/-- Embeds sign(message) (lines 190–238). -/
def sign (env : Env) (caller : Principal) (message : List Nat)
    (s : CanisterState) : OpResult (List Nat) :=
  match getAuthenticatedCaller caller with
  | .error e => ⟨.error e, s, []⟩
  | .ok c =>
    match validateMessage message with
    | .error e => ⟨.error e, s, []⟩
    | .ok _ =>
      match s.canisterSalt with
      | none => ⟨.error .SaltNotInitialized, s, []⟩
      | some salt =>
        let derivationPath := [salt, c.bytes]
        let resp := env.signResp message derivationPath
        if !resp.ok then
          ⟨.error .ProviderError, s, [.signWithSchnorr message derivationPath]⟩
        else
          match resp.payload with
          | none => ⟨.error .MalformedResponse, s, [.signWithSchnorr message derivationPath]⟩
          | some arr =>
            if arr.length ≠ 64 then
              ⟨.error .MalformedResponse, s, [.signWithSchnorr message derivationPath]⟩
            else
              ⟨.ok (toUint8Array arr), s, [.signWithSchnorr message derivationPath]⟩

/-- The lowercase hex digit for n < 16, as produced by the JavaScript
number-to-string conversion in base 16. -/
def hexDigit (n : Nat) : Char :=
  if n < 10 then Char.ofNat (48 + n) else Char.ofNat (87 + n)

/-- Models b.toString(16).padStart(2, zero) for a byte b: always exactly
two lowercase hex characters, padded with a leading zero digit. -/
def byteToHex (b : Nat) : String :=
  String.mk [hexDigit (b / 16 % 16), hexDigit (b % 16)]

/-- Models the JavaScript array join with empty separator. -/
def joinAll (l : List String) : String := l.foldl (fun a b => a ++ b) ""

/-- Embeds bytesToHex(bytes) (lines 29–33): the 0x marker followed by the
two-digit lowercase hex of each byte, joined without separators. -/
def bytesToHex (bytes : List Nat) : String :=
  "0x" ++ joinAll (bytes.map byteToHex)

/-- Embeds signWithPublicKey(message) (lines 240–256). -/
def signWithPublicKey (env : Env) (caller : Principal) (message : List Nat)
    (s : CanisterState) : OpResult (List Nat × List Nat) :=
  let r1 := sign env caller message s
  match r1.result with
  | .error e => ⟨.error e, r1.state, r1.calls⟩
  | .ok signature =>
    let r2 := getPublicKeyForCaller env caller r1.state
    match r2.result with
    | .error e => ⟨.error e, r2.state, r1.calls ++ r2.calls⟩
    | .ok publicKey => ⟨.ok (signature, publicKey), r2.state, r1.calls ++ r2.calls⟩

/-- The record returned by signWithHex. -/
structure SignHexResult where
  signature : List Nat
  signature_hex : String
  public_key : List Nat
  public_key_hex : String
  deriving DecidableEq, Repr

/-- Embeds signWithHex(message) (lines 264–280). -/
def signWithHex (env : Env) (caller : Principal) (message : List Nat)
    (s : CanisterState) : OpResult SignHexResult :=
  let r1 := sign env caller message s
  match r1.result with
  | .error e => ⟨.error e, r1.state, r1.calls⟩
  | .ok signature =>
    let r2 := getPublicKeyForCaller env caller r1.state
    match r2.result with
    | .error e => ⟨.error e, r2.state, r1.calls ++ r2.calls⟩
    | .ok publicKey =>
      ⟨.ok ⟨signature, bytesToHex signature, publicKey, bytesToHex publicKey⟩,
       r2.state, r1.calls ++ r2.calls⟩

/-- Embeds isInitialized() (lines 283–286), the double negation of the salt
slot lookup; it does not authenticate and cannot fail. -/
def isInitialized (s : CanisterState) : Bool :=
  s.canisterSalt.isSome

/-- Embeds clearPublicKeyCache() (lines 289–305): soft-fails to false on the
owner check, otherwise removes each key returned by keys(). -/
def clearPublicKeyCache (caller : Principal) (s : CanisterState) : OpResult Bool :=
  match getAuthenticatedCaller caller with
  | .error e => ⟨.error e, s, []⟩
  | .ok c =>
    if ownerCheckFails c s.canisterOwner then ⟨.ok false, s, []⟩
    else
      let keys := s.publicKeyCache.map Prod.fst
      ⟨.ok true, { s with publicKeyCache := keys.foldl cacheRemove s.publicKeyCache }, []⟩

/-- Embeds init() (lines 59–64): records the deployer as owner. -/
def canisterInit (caller : Principal) (s : CanisterState) : OpResult Unit :=
  ⟨.ok (), { s with canisterOwner := some caller }, []⟩

/-- Embeds getPublicKey() (lines 167–169): just getPublicKeyForCaller(). -/
def getPublicKey (env : Env) (caller : Principal) (s : CanisterState) :
    OpResult (List Nat) :=
  getPublicKeyForCaller env caller s

/-- The value returned by an operation, one constructor per return shape. -/
inductive OutVal where
  | text (t : String)
  | bytes (b : List Nat)
  | addr (publicKey : List Nat) ( networkPrefix : Int)
  | sigPk (signature publicKey : List Nat)
  | sigHex (r : SignHexResult)
  | flag (b : Bool)
  | unit
  deriving DecidableEq, Repr

/-- Wrap a typed result into the uniform `OutVal` shape. -/
def OpResult.mapVal {α : Type} (r : OpResult α) (f : α → OutVal) : OpResult OutVal :=
  ⟨r.result.map f, r.state, r.calls⟩

/-- The full operation surface of the canister, with the identity of the IC
caller attached (also for the query `isInitialized`, which ignores it). -/
inductive Op where
  | opInitializeSalt (caller : Principal)
  | opGetPublicKey (caller : Principal)
  | opGetAddressData (caller : Principal) ( networkPrefix : Int)
  | opSign (caller : Principal) (message : List Nat)
  | opSignWithPublicKey (caller : Principal) (message : List Nat)
  | opSignWithHex (caller : Principal) (message : List Nat)
  | opIsInitialized (caller : Principal)
  | opClearPublicKeyCache (caller : Principal)
  | opCanisterInit (caller : Principal)
  deriving DecidableEq, Repr

/-- Run one operation against the state. -/
def applyOp (env : Env) (op : Op) (s : CanisterState) : OpResult OutVal :=
  match op with
  | .opInitializeSalt c => (initializeSalt env c s).mapVal .text
  | .opGetPublicKey c => (getPublicKey env c s).mapVal .bytes
  | .opGetAddressData c np => (getAddressData env c np s).mapVal (fun p => .addr p.1 p.2)
  | .opSign c m => (sign env c m s).mapVal .bytes
  | .opSignWithPublicKey c m => (signWithPublicKey env c m s).mapVal (fun p => .sigPk p.1 p.2)
  | .opSignWithHex c m => (signWithHex env c m s).mapVal .sigHex
  | .opIsInitialized _ => ⟨.ok (.flag (isInitialized s)), s, []⟩
  | .opClearPublicKeyCache c => (clearPublicKeyCache c s).mapVal .flag
  | .opCanisterInit c => (canisterInit c s).mapVal (fun _ => .unit)

/-! ### Hex decoding and well-formedness (verification-side definitions) -/

/-- A lowercase hex character: `0`–`9` or `a`–`f`. -/
def isLowerHexDigit (ch : Char) : Bool :=
  (decide (48 ≤ ch.toNat) && decide (ch.toNat ≤ 57)) ||
  (decide (97 ≤ ch.toNat) && decide (ch.toNat ≤ 102))

/-- Value of a lowercase hex character (`parseInt(‹ch›, 16)` on the
characters `bytesToHex` produces). -/
def hexCharVal (ch : Char) : Nat :=
  if 48 ≤ ch.toNat ∧ ch.toNat ≤ 57 then ch.toNat - 48 else ch.toNat - 87

/-- Decode consecutive pairs of hex characters into bytes (the test-side
`hex.match(/.{2}/g).map(b => parseInt(b, 16))`). -/
def hexPairs : List Char → List Nat
  | c1 :: c2 :: rest => (hexCharVal c1 * 16 + hexCharVal c2) :: hexPairs rest
  | _ => []

/-- Decode a `0x…` hex string back to bytes (`hex.slice(2)`, then pairs). -/
def hexDecode (h : String) : List Nat := hexPairs (h.data.drop 2)

/-- The character stream `bytesToHex` produces after the `0x` marker. -/
def hexChars : List Nat → List Char
  | [] => []
  | b :: bs => hexDigit (b / 16 % 16) :: hexDigit (b % 16) :: hexChars bs

/-- What "lowercase, 0x-prefixed, two hex characters per byte, no
separators" means for a hex string encoding `n` bytes. -/
def hexWellFormed (h : String) (n : Nat) : Prop :=
  h.data.take 2 = ['0', 'x'] ∧ h.data.length = 2 + 2 * n ∧
  ∀ ch ∈ h.data.drop 2, isLowerHexDigit ch = true

/-! ### Concrete fixtures used by witnesses and counterexamples -/

/-- The deployer / stored owner. -/
def pOwner : Principal := ⟨"owner-principal", [1, 2, 3]⟩

/-- Some authenticated caller different from the owner. -/
def pAlice : Principal := ⟨"alice-principal", [4, 5, 6]⟩

/-- The anonymous principal. -/
def pAnon : Principal := ⟨"2vxsx-fae", [4]⟩

/-- A well-behaved provider: 32 random bytes, 32-byte keys, 64-byte
signatures. -/
def envGood : Env where
  rawRandResp := ⟨true, some (List.replicate 32 7)⟩
  pubKeyResp := fun _ => ⟨true, some (List.replicate 32 9)⟩
  signResp := fun _ _ => ⟨true, some (List.replicate 64 5)⟩

/-- Post-deployment state: owner recorded, salt absent, cache empty. -/
def stateFresh : CanisterState := ⟨none, some pOwner, []⟩

/-- Salt initialized, cache empty. -/
def stateInit : CanisterState := ⟨some (List.replicate 32 7), some pOwner, []⟩

/-- Salt initialized, one cache entry. -/
def stateCached : CanisterState :=
  ⟨some (List.replicate 32 7), some pOwner, [("bob-principal", List.replicate 32 11)]⟩

/-! ### Basic lemmas about the building blocks -/

theorem getAuthenticatedCaller_ok (c : Principal)
    (h : c.text ≠ ANONYMOUS_PRINCIPAL_TEXT) :
    getAuthenticatedCaller c = .ok c := by
  simp [getAuthenticatedCaller, h]

theorem getAuthenticatedCaller_anon (c : Principal)
    (h : c.text = ANONYMOUS_PRINCIPAL_TEXT) :
    getAuthenticatedCaller c = .error .Unauthenticated := by
  simp [getAuthenticatedCaller, h]

/-- When an owner is recorded, the owner check passes for EVERY caller:
`caller.compareTo(owner)` is one of the non-empty strings "lt"/"eq"/"gt",
so `!caller.compareTo(owner)` is always `false`. -/
theorem ownerCheckFails_some (c o : Principal) :
    ownerCheckFails c (some o) = false := by
  unfold ownerCheckFails jsStrTruthy Principal.compareTo
  split <;> simp_all
  split
  · decide
  · split <;> decide

theorem ownerCheckFails_none (c : Principal) :
    ownerCheckFails c none = true := rfl

/-! ### Frame and call-count lemmas for each operation -/

theorem sign_state_eq (env : Env) (c : Principal) (m : List Nat)
    (s : CanisterState) : (sign env c m s).state = s := by
  simp only [sign]
  repeat' split
  all_goals rfl

theorem sign_calls_le_one (env : Env) (c : Principal) (m : List Nat)
    (s : CanisterState) : (sign env c m s).calls.length ≤ 1 := by
  simp only [sign]
  repeat' split
  all_goals simp

theorem getPublicKeyForCaller_salt (env : Env) (c : Principal)
    (s : CanisterState) :
    (getPublicKeyForCaller env c s).state.canisterSalt = s.canisterSalt := by
  simp only [getPublicKeyForCaller]
  repeat' split
  all_goals rfl

theorem getPublicKeyForCaller_owner (env : Env) (c : Principal)
    (s : CanisterState) :
    (getPublicKeyForCaller env c s).state.canisterOwner = s.canisterOwner := by
  simp only [getPublicKeyForCaller]
  repeat' split
  all_goals rfl

theorem getPublicKeyForCaller_calls_le_one (env : Env) (c : Principal)
    (s : CanisterState) : (getPublicKeyForCaller env c s).calls.length ≤ 1 := by
  simp only [getPublicKeyForCaller]
  repeat' split
  all_goals simp

theorem clearPublicKeyCache_salt (c : Principal) (s : CanisterState) :
    (clearPublicKeyCache c s).state.canisterSalt = s.canisterSalt := by
  simp only [clearPublicKeyCache]
  repeat' split
  all_goals rfl

theorem initializeSalt_state_of_salt_isSome (env : Env) (c : Principal)
    (s : CanisterState) (h : s.canisterSalt.isSome) :
    (initializeSalt env c s).state = s := by
  rcases hs : s.canisterSalt with _ | salt
  · rw [hs] at h; simp at h
  · simp only [initializeSalt, hs]
    repeat' split
    all_goals rfl

theorem getAddressData_salt (env : Env) (c : Principal) ( networkPrefix : Int)
    (s : CanisterState) :
    (getAddressData env c networkPrefix s).state.canisterSalt = s.canisterSalt := by
  simp only [getAddressData]
  repeat' split
  all_goals simp [getPublicKeyForCaller_salt]

theorem signWithPublicKey_salt (env : Env) (c : Principal) (m : List Nat)
    (s : CanisterState) :
    (signWithPublicKey env c m s).state.canisterSalt = s.canisterSalt := by
  simp only [signWithPublicKey]
  repeat' split
  all_goals simp [getPublicKeyForCaller_salt, sign_state_eq]

theorem signWithHex_salt (env : Env) (c : Principal) (m : List Nat)
    (s : CanisterState) :
    (signWithHex env c m s).state.canisterSalt = s.canisterSalt := by
  simp only [signWithHex]
  repeat' split
  all_goals simp [getPublicKeyForCaller_salt, sign_state_eq]

/-! ### The cache-clearing loop empties the cache -/

theorem mem_cacheRemove {p : String × List Nat} {m : Cache} {k : String}
    (h : p ∈ cacheRemove m k) : p ∈ m ∧ p.1 ≠ k := by
  unfold cacheRemove at h
  have h2 := List.mem_filter.mp h
  refine ⟨h2.1, ?_⟩
  simpa using h2.2

theorem foldl_cacheRemove_nil (ks : List String) (m : Cache)
    (h : ∀ p ∈ m, p.1 ∈ ks) : ks.foldl cacheRemove m = [] := by
  induction ks generalizing m with
  | nil =>
    cases m with
    | nil => rfl
    | cons p l => exact absurd (h p (by simp)) (by simp)
  | cons k ks ih =>
    simp only [List.foldl_cons]
    apply ih
    intro p hp
    obtain ⟨hpm, hne⟩ := mem_cacheRemove hp
    rcases List.mem_cons.mp (h p hpm) with h1 | h1
    · exact absurd h1 hne
    · exact h1

/-- Removing every key returned by `keys()` leaves the cache empty. -/
theorem cacheClear_eq_nil (m : Cache) :
    (m.map Prod.fst).foldl cacheRemove m = [] :=
  foldl_cacheRemove_nil _ m (fun _ hp => List.mem_map_of_mem Prod.fst hp)

/-- For any authenticated caller, as soon as an owner is recorded the
clear succeeds and the cache is empty afterwards. -/
theorem clearPublicKeyCache_run (c : Principal) (s : CanisterState)
    (h1 : c.text ≠ ANONYMOUS_PRINCIPAL_TEXT) (h2 : s.canisterOwner.isSome) :
    clearPublicKeyCache c s = ⟨.ok true, { s with publicKeyCache := [] }, []⟩ := by
  obtain ⟨o, ho⟩ := Option.isSome_iff_exists.mp h2
  simp only [clearPublicKeyCache, getAuthenticatedCaller_ok c h1, ho,
    ownerCheckFails_some, cacheClear_eq_nil, Bool.false_eq_true, if_false]

/-- A freshly inserted cache entry is found again. -/
theorem cacheGet_insert (m : Cache) (k : String) (v : List Nat) :
    cacheGet (cacheInsert m k v) k = some v := by
  simp [cacheGet, cacheInsert, List.find?]

/-! ### Hex encoding: shape and round trip -/

theorem string_data_append (a b : String) : (a ++ b).data = a.data ++ b.data := by
  cases a; cases b; rfl

theorem joinAll_aux (l : List Nat) (acc : String) :
    ((l.map byteToHex).foldl (fun a b => a ++ b) acc).data = acc.data ++ hexChars l := by
  induction l generalizing acc with
  | nil => simp [hexChars]
  | cons b bs ih =>
    simp only [List.map_cons, List.foldl_cons, ih, string_data_append, hexChars]
    simp [byteToHex]

theorem bytesToHex_data (l : List Nat) :
    (bytesToHex l).data = '0' :: 'x' :: hexChars l := by
  have h := joinAll_aux l ""
  simp only [bytesToHex, joinAll, string_data_append, h]
  rfl

theorem hexCharVal_hexDigit (n : Nat) (h : n < 16) :
    hexCharVal (hexDigit n) = n := by
  interval_cases n <;> decide

theorem isLowerHexDigit_hexDigit (n : Nat) (h : n < 16) :
    isLowerHexDigit (hexDigit n) = true := by
  interval_cases n <;> decide

theorem hexPairs_hexChars (l : List Nat) (h : ∀ b ∈ l, b < 256) :
    hexPairs (hexChars l) = l := by
  induction l with
  | nil => rfl
  | cons b bs ih =>
    have hb : b < 256 := h b (by simp)
    simp only [hexChars, hexPairs]
    rw [hexCharVal_hexDigit _ (by omega), hexCharVal_hexDigit _ (by omega),
      ih (fun x hx => h x (by simp [hx]))]
    congr 1
    omega

theorem hexChars_length (l : List Nat) : (hexChars l).length = 2 * l.length := by
  induction l with
  | nil => rfl
  | cons b bs ih => simp [hexChars, ih]; omega

theorem hexChars_lower (l : List Nat) :
    ∀ ch ∈ hexChars l, isLowerHexDigit ch = true := by
  induction l with
  | nil => simp [hexChars]
  | cons b bs ih =>
    intro ch hch
    simp only [hexChars, List.mem_cons] at hch
    rcases hch with h1 | h1 | h1
    · rw [h1]; exact isLowerHexDigit_hexDigit _ (by omega)
    · rw [h1]; exact isLowerHexDigit_hexDigit _ (by omega)
    · exact ih ch h1

theorem bytesToHex_wellFormed (l : List Nat) :
    hexWellFormed (bytesToHex l) l.length := by
  refine ⟨?_, ?_, ?_⟩ <;> rw [bytesToHex_data]
  · rfl
  · simp [hexChars_length]; omega
  · simpa using hexChars_lower l

theorem bytesToHex_roundTrip (l : List Nat) (h : ∀ b ∈ l, b < 256) :
    hexDecode (bytesToHex l) = l := by
  simp [hexDecode, bytesToHex_data, hexPairs_hexChars l h]

/-- Every output of `new Uint8Array(...)` is a list of bytes. -/
theorem toUint8Array_lt (arr : List Nat) : ∀ b ∈ toUint8Array arr, b < 256 := by
  intro b hb
  simp only [toUint8Array, List.mem_map] at hb
  obtain ⟨a, _, ha⟩ := hb
  omega

/-! ### Claims -/

/-- C1: the claim "for every authenticated caller that differs from the
stored Owner, `initializeSalt` fails with `NotOwner`" is FALSE of the code:
`!owner || !caller.compareTo(owner)` never fires once an owner is stored,
because `compareTo` returns one of the non-empty (hence truthy) strings
"lt"/"eq"/"gt".  Concretely, the non-owner `pAlice` sails past the owner
check and initializes the salt successfully. -/
theorem c1_initializeSalt_nonowner_not_rejected :
    pAlice ≠ pOwner ∧
    pAlice.text ≠ ANONYMOUS_PRINCIPAL_TEXT ∧
    stateFresh.canisterOwner = some pOwner ∧
    (initializeSalt envGood pAlice stateFresh).result =
      .ok "Salt initialized successfully with secure randomness" ∧
    (initializeSalt envGood pAlice stateFresh).state.canisterSalt =
      some (List.replicate 32 7) := by
  decide

/-- C2: the claim "for every authenticated caller that is not the Owner,
`clearPublicKeyCache` returns `false` and leaves the cache unchanged" is
FALSE of the code, for the same `compareTo` truthiness slip as C1: the
non-owner `pAlice` gets `true` back and the whole cache is wiped. -/
theorem c2_clearCache_nonowner_clears :
    pAlice ≠ pOwner ∧
    pAlice.text ≠ ANONYMOUS_PRINCIPAL_TEXT ∧
    stateCached.canisterOwner = some pOwner ∧
    stateCached.publicKeyCache ≠ [] ∧
    (clearPublicKeyCache pAlice stateCached).result = .ok true ∧
    (clearPublicKeyCache pAlice stateCached).state.publicKeyCache = [] := by
  decide

/-- C6: the anonymous identity is rejected with `Unauthenticated` by every
authenticated operation, before any validation, state write or provider
call (post-state equals the pre-state, call list empty, for every message
and prefix); `isInitialized` performs no authentication and succeeds for
the anonymous caller. -/
theorem c6_anonymous_rejected (env : Env) (c : Principal) (s : CanisterState)
    (h : c.text = ANONYMOUS_PRINCIPAL_TEXT) :
    (∀ m ( np : Int),
      initializeSalt env c s = ⟨.error .Unauthenticated, s, []⟩ ∧
      getPublicKey env c s = ⟨.error .Unauthenticated, s, []⟩ ∧
      getAddressData env c np s = ⟨.error .Unauthenticated, s, []⟩ ∧
      sign env c m s = ⟨.error .Unauthenticated, s, []⟩ ∧
      signWithPublicKey env c m s = ⟨.error .Unauthenticated, s, []⟩ ∧
      signWithHex env c m s = ⟨.error .Unauthenticated, s, []⟩ ∧
      clearPublicKeyCache c s = ⟨.error .Unauthenticated, s, []⟩) ∧
    applyOp env (.opIsInitialized c) s = ⟨.ok (.flag (isInitialized s)), s, []⟩ := by
  have ha := getAuthenticatedCaller_anon c h
  refine ⟨fun m np => ⟨?_, ?_, ?_, ?_, ?_, ?_, ?_⟩, rfl⟩
  · simp [initializeSalt, ha]
  · simp [getPublicKey, getPublicKeyForCaller, ha]
  · simp [getAddressData, getPublicKeyForCaller, ha]
  · simp [sign, ha]
  · simp [signWithPublicKey, sign, ha]
  · simp [signWithHex, sign, ha]
  · simp [clearPublicKeyCache, ha]

/-- C6 witness: the anonymous principal's `sign` call at a concrete state. -/
theorem c6_anonymous_rejected_witness :
    sign envGood pAnon [1] stateFresh = ⟨.error .Unauthenticated, stateFresh, []⟩ :=
  ((c6_anonymous_rejected envGood pAnon stateFresh rfl).1 [1] 0).2.2.2.1

/-- C9: `sign` is read-only on the durable state, whether it succeeds or
fails: the post-state (salt slot, owner slot and public-key cache alike)
is the pre-state, both for the bare operation and through the operation
dispatcher. -/
theorem c9_sign_frame (env : Env) (c : Principal) (m : List Nat)
    (s : CanisterState) :
    (sign env c m s).state = s ∧ (applyOp env (.opSign c m) s).state = s := by
  refine ⟨sign_state_eq env c m s, ?_⟩
  simp [applyOp, OpResult.mapVal, sign_state_eq]

/-- C10: `clearPublicKeyCache` called by the stored owner returns `true`
(also when the cache is already empty, since `s` is arbitrary here), empties
the cache, and is idempotent: a second owner call returns `true` again and
leaves the state exactly as after the first. -/
theorem c10_clearCache_idempotent (c : Principal) (s : CanisterState)
    (h1 : c.text ≠ ANONYMOUS_PRINCIPAL_TEXT) (h2 : s.canisterOwner = some c) :
    (clearPublicKeyCache c s).result = .ok true ∧
    (clearPublicKeyCache c s).state.publicKeyCache = [] ∧
    (clearPublicKeyCache c ((clearPublicKeyCache c s).state)).result = .ok true ∧
    (clearPublicKeyCache c ((clearPublicKeyCache c s).state)).state =
      (clearPublicKeyCache c s).state := by
  have hrun := clearPublicKeyCache_run c s h1 (by rw [h2]; rfl)
  have hrun2 := clearPublicKeyCache_run c { s with publicKeyCache := [] } h1
    (by show s.canisterOwner.isSome; rw [h2]; rfl)
  refine ⟨by rw [hrun], by rw [hrun], ?_, ?_⟩
  · rw [hrun]; rw [hrun2]
  · rw [hrun]; rw [hrun2]

/-- C3 counterexample: the claim "getAddressData validates the prefix before
delegating key retrieval, and no state mutation is observable after the
failure" is FALSE of the code, which retrieves (and caches) the key FIRST:
with the salt present and an empty cache, `getAddressData(300)` does fail
`InvalidNetworkPrefix`, but a public-key-cache entry and a provider call are
observable afterwards; and with the salt absent, `getAddressData(300)` fails
`SaltNotInitialized` instead of `InvalidNetworkPrefix`. -/
theorem c3_getAddressData_counterexample :
    ((getAddressData envGood pAlice 300 stateInit).result =
        .error .InvalidNetworkPrefix ∧
      (getAddressData envGood pAlice 300 stateInit).state ≠ stateInit ∧
      (getAddressData envGood pAlice 300 stateInit).state.publicKeyCache ≠ [] ∧
      (getAddressData envGood pAlice 300 stateInit).calls ≠ []) ∧
    (getAddressData envGood pAlice 300 stateFresh).result =
      .error .SaltNotInitialized := by
  decide

/-- C3 (amended): `getAddressData` performs key retrieval FIRST, surfacing
any key-retrieval failure (so its state and provider-call effects, including
a possible cache write, are observable); only if retrieval succeeds does it
fail `InvalidNetworkPrefix` for a prefix outside [0,255], and for a prefix
inside [0,255] (in particular 0, 2 and 66) it succeeds and returns the given
prefix unchanged alongside the caller's public key. -/
theorem c3_getAddressData_amended (env : Env) (c : Principal)
    ( networkPrefix : Int) (s : CanisterState) :
    (∀ e, (getPublicKeyForCaller env c s).result = .error e →
        getAddressData env c networkPrefix s =
          ⟨.error e, (getPublicKeyForCaller env c s).state,
            (getPublicKeyForCaller env c s).calls⟩) ∧
    (∀ pk, (getPublicKeyForCaller env c s).result = .ok pk →
        (( networkPrefix < 0 ∨ networkPrefix > 255) →
            getAddressData env c networkPrefix s =
              ⟨.error .InvalidNetworkPrefix, (getPublicKeyForCaller env c s).state,
                (getPublicKeyForCaller env c s).calls⟩) ∧
        ((0 ≤ networkPrefix ∧ networkPrefix ≤ 255) →
            getAddressData env c networkPrefix s =
              ⟨.ok (pk, networkPrefix), (getPublicKeyForCaller env c s).state,
                (getPublicKeyForCaller env c s).calls⟩)) := by
  constructor
  · intro e he
    simp only [getAddressData, he]
  · intro pk hpk
    constructor
    · intro hrange
      simp only [getAddressData, hpk]
      rw [if_pos hrange]
    · intro hrange
      simp only [getAddressData, hpk]
      rw [if_neg (by omega)]

/-- C3 witness: prefix 66 with a cooperative provider succeeds and echoes
the prefix. -/
theorem c3_getAddressData_amended_witness :
    getAddressData envGood pAlice 66 stateInit =
      ⟨.ok (List.replicate 32 9, 66),
        ⟨some (List.replicate 32 7), some pOwner,
          [("alice-principal", List.replicate 32 9)]⟩,
        [.schnorrPublicKey [List.replicate 32 7, [4, 5, 6]]]⟩ := by
  have h := ((c3_getAddressData_amended envGood pAlice 66 stateInit).2
      (List.replicate 32 9) (by decide)).2 (by decide)
  rw [h]
  decide

/-- C4: `sign` rejects an empty message with `EmptyMessage` and a message
longer than 1,048,576 bytes with `MessageTooLarge`, in both cases with no
state change and no provider call (and for any salt state, i.e. before the
salt check); for a message of exactly 1 or exactly 1,048,576 bytes, with
the salt present and a well-formed 64-byte provider reply, it succeeds and
returns a 64-byte signature. -/
theorem c4_sign_validation (env : Env) (c : Principal) (m : List Nat)
    (s : CanisterState) (hc : c.text ≠ ANONYMOUS_PRINCIPAL_TEXT) :
    (m.length = 0 → sign env c m s = ⟨.error .EmptyMessage, s, []⟩) ∧
    (m.length > MAX_MESSAGE_BYTES →
        sign env c m s = ⟨.error .MessageTooLarge, s, []⟩) ∧
    (∀ salt arr, s.canisterSalt = some salt →
        env.signResp m [salt, c.bytes] = ⟨true, some arr⟩ →
        arr.length = 64 →
        (m.length = 1 ∨ m.length = MAX_MESSAGE_BYTES) →
        (sign env c m s).result = .ok (toUint8Array arr) ∧
        (toUint8Array arr).length = 64) := by
  refine ⟨?_, ?_, ?_⟩
  · intro h0
    have hv : validateMessage m = .error .EmptyMessage := by
      unfold validateMessage MIN_MESSAGE_BYTES
      rw [if_pos (by omega)]
    simp only [sign, getAuthenticatedCaller_ok c hc, hv]
  · intro hbig
    have hv : validateMessage m = .error .MessageTooLarge := by
      unfold validateMessage MIN_MESSAGE_BYTES
      unfold MAX_MESSAGE_BYTES at hbig
      rw [if_neg (by omega), if_pos (by unfold MAX_MESSAGE_BYTES; omega)]
    simp only [sign, getAuthenticatedCaller_ok c hc, hv]
  · intro salt arr hsalt hresp hlen hm
    have hlen2 : 1 ≤ m.length ∧ m.length ≤ 1048576 := by
      unfold MAX_MESSAGE_BYTES at hm
      rcases hm with h | h <;> rw [h] <;> omega
    have hv : validateMessage m = .ok () := by
      unfold validateMessage MIN_MESSAGE_BYTES MAX_MESSAGE_BYTES
      rw [if_neg (by omega), if_neg (by omega)]
    refine ⟨?_, by simp [toUint8Array, hlen]⟩
    simp only [sign, getAuthenticatedCaller_ok c hc, hv, hsalt, hresp, hlen]
    simp

/-- C4 witness: empty, oversized, 1-byte and 1,048,576-byte messages at a
concrete state with a cooperative provider. -/
theorem c4_sign_validation_witness :
    sign envGood pAlice [] stateInit = ⟨.error .EmptyMessage, stateInit, []⟩ ∧
    sign envGood pAlice (List.replicate (MAX_MESSAGE_BYTES + 1) 0) stateInit =
      ⟨.error .MessageTooLarge, stateInit, []⟩ ∧
    (sign envGood pAlice [1] stateInit).result = .ok (List.replicate 64 5) ∧
    (sign envGood pAlice (List.replicate MAX_MESSAGE_BYTES 2) stateInit).result =
      .ok (List.replicate 64 5) := by
  refine ⟨?_, ?_, ?_, ?_⟩
  · exact (c4_sign_validation envGood pAlice [] stateInit (by decide)).1 rfl
  · exact (c4_sign_validation envGood pAlice _ stateInit (by decide)).2.1
      (by rw [List.length_replicate]; omega)
  · have h := (c4_sign_validation envGood pAlice [1] stateInit (by decide)).2.2
      (List.replicate 32 7) (List.replicate 64 5) rfl rfl (by simp) (Or.inl rfl)
    rw [h.1]; decide
  · have h := (c4_sign_validation envGood pAlice
        (List.replicate MAX_MESSAGE_BYTES 2) stateInit (by decide)).2.2
      (List.replicate 32 7) (List.replicate 64 5) rfl rfl (by simp)
      (Or.inr (by rw [List.length_replicate]))
    rw [h.1]; decide

/-- On an uninitialized salt slot, `initializeSalt` either leaves the slot
absent (some check failed) or returns its success message having filled it. -/
theorem initializeSalt_salt_none_cases (env : Env) (c : Principal)
    (s : CanisterState) (h : s.canisterSalt = none) :
    (initializeSalt env c s).state.canisterSalt = none ∨
      ((initializeSalt env c s).result =
          .ok "Salt initialized successfully with secure randomness" ∧
        (initializeSalt env c s).state.canisterSalt.isSome) := by
  simp only [initializeSalt, h]
  repeat' split
  all_goals simp [h]

/-- C5: the salt transition is one-way.  (1) once the salt slot is present no
operation changes it; (2) from an absent slot, the only operation that can
make it present is a successful `initializeSalt`; (3) any second (or later)
call to `initializeSalt` by an authenticated caller — owner or not — fails
`AlreadyInitialized`; (4) `isInitialized` (which takes no caller and cannot
fail) answers exactly whether the salt slot is present. -/
theorem c5_salt_one_way (env : Env) :
    (∀ op s, s.canisterSalt.isSome →
        (applyOp env op s).state.canisterSalt = s.canisterSalt) ∧
    (∀ op s, s.canisterSalt = none → (applyOp env op s).state.canisterSalt ≠ none →
        ∃ c, op = .opInitializeSalt c ∧
          (applyOp env op s).result =
            .ok (.text "Salt initialized successfully with secure randomness") ∧
          isInitialized (applyOp env op s).state = true) ∧
    (∀ c s, c.text ≠ ANONYMOUS_PRINCIPAL_TEXT → s.canisterOwner.isSome →
        s.canisterSalt.isSome →
        (initializeSalt env c s).result = .error .AlreadyInitialized) ∧
    (∀ s, (isInitialized s = false ↔ s.canisterSalt = none) ∧
        (isInitialized s = true ↔ s.canisterSalt.isSome)) := by
  refine ⟨?_, ?_, ?_, ?_⟩
  · intro op s h
    cases op with
    | opInitializeSalt c =>
      simp only [applyOp, OpResult.mapVal]
      rw [initializeSalt_state_of_salt_isSome env c s h]
    | opGetPublicKey c =>
      simp only [applyOp, OpResult.mapVal, getPublicKey]
      rw [getPublicKeyForCaller_salt]
    | opGetAddressData c np =>
      simp only [applyOp, OpResult.mapVal]
      rw [getAddressData_salt]
    | opSign c m =>
      simp only [applyOp, OpResult.mapVal]
      rw [sign_state_eq]
    | opSignWithPublicKey c m =>
      simp only [applyOp, OpResult.mapVal]
      rw [signWithPublicKey_salt]
    | opSignWithHex c m =>
      simp only [applyOp, OpResult.mapVal]
      rw [signWithHex_salt]
    | opIsInitialized c => rfl
    | opClearPublicKeyCache c =>
      simp only [applyOp, OpResult.mapVal]
      rw [clearPublicKeyCache_salt]
    | opCanisterInit c => rfl
  · intro op s h hne
    cases op with
    | opInitializeSalt c =>
      rcases initializeSalt_salt_none_cases env c s h with h1 | ⟨h1, h2⟩
      · exact absurd (by simpa only [applyOp, OpResult.mapVal] using h1) hne
      · exact ⟨c, rfl, by simp only [applyOp, OpResult.mapVal, h1, Except.map],
          by simpa only [applyOp, OpResult.mapVal, isInitialized] using h2⟩
    | opGetPublicKey c =>
      exfalso; apply hne
      simp only [applyOp, OpResult.mapVal, getPublicKey]
      rw [getPublicKeyForCaller_salt, h]
    | opGetAddressData c np =>
      exfalso; apply hne
      simp only [applyOp, OpResult.mapVal]
      rw [getAddressData_salt, h]
    | opSign c m =>
      exfalso; apply hne
      simp only [applyOp, OpResult.mapVal]
      rw [sign_state_eq, h]
    | opSignWithPublicKey c m =>
      exfalso; apply hne
      simp only [applyOp, OpResult.mapVal]
      rw [signWithPublicKey_salt, h]
    | opSignWithHex c m =>
      exfalso; apply hne
      simp only [applyOp, OpResult.mapVal]
      rw [signWithHex_salt, h]
    | opIsInitialized c => exact absurd h hne
    | opClearPublicKeyCache c =>
      exfalso; apply hne
      simp only [applyOp, OpResult.mapVal]
      rw [clearPublicKeyCache_salt, h]
    | opCanisterInit c => exact absurd h hne
  · intro c s hc how hsalt
    obtain ⟨o, ho⟩ := Option.isSome_iff_exists.mp how
    obtain ⟨x, hx⟩ := Option.isSome_iff_exists.mp hsalt
    simp only [initializeSalt, getAuthenticatedCaller_ok c hc, ho,
      ownerCheckFails_some, hx, Bool.false_eq_true, if_false]
  · intro s
    rcases hs : s.canisterSalt with _ | v <;> simp [isInitialized, hs]

/-- C5 witness: a second `initializeSalt` (here even by a non-owner, which
the code lets through the owner check) fails `AlreadyInitialized`, and a
`sign` call leaves the present salt untouched. -/
theorem c5_salt_one_way_witness :
    (initializeSalt envGood pAlice stateInit).result = .error .AlreadyInitialized ∧
    (applyOp envGood (.opSign pAlice [1]) stateInit).state.canisterSalt =
      stateInit.canisterSalt :=
  ⟨(c5_salt_one_way envGood).2.2.1 pAlice stateInit (by decide) (by decide) (by decide),
   (c5_salt_one_way envGood).1 (.opSign pAlice [1]) stateInit (by decide)⟩

/-- Cache hit: `getPublicKeyForCaller` answers from the cache with no
provider call and no state change. -/
theorem getPublicKeyForCaller_cache_hit (env : Env) (c : Principal)
    (s : CanisterState) (pk : List Nat) (hc : c.text ≠ ANONYMOUS_PRINCIPAL_TEXT)
    (h : cacheGet s.publicKeyCache c.text = some pk) :
    getPublicKeyForCaller env c s = ⟨.ok pk, s, []⟩ := by
  simp only [getPublicKeyForCaller, getAuthenticatedCaller_ok c hc, h]

/-- C7: for an authenticated caller, `getPublicKey` (i) returns a cached
entry with no provider call and no state change; (ii) on a cache miss fails
`SaltNotInitialized` when the salt is absent, again with no call and no
write; (iii) on a cache miss with the salt present it makes exactly the one
provider call, fails `MalformedResponse` when the reply's key field is not
an array or not exactly 32 bytes, and otherwise stores the 32-byte key under
the caller and returns it, so that an immediately repeated call returns the
identical value from the cache. -/
theorem c7_getPublicKey_spec (env : Env) (c : Principal) (s : CanisterState)
    (hc : c.text ≠ ANONYMOUS_PRINCIPAL_TEXT) :
    (∀ pk, cacheGet s.publicKeyCache c.text = some pk →
        getPublicKeyForCaller env c s = ⟨.ok pk, s, []⟩) ∧
    (cacheGet s.publicKeyCache c.text = none →
        (s.canisterSalt = none →
            getPublicKeyForCaller env c s = ⟨.error .SaltNotInitialized, s, []⟩) ∧
        (∀ salt, s.canisterSalt = some salt →
            env.pubKeyResp [salt, c.bytes] = ⟨true, none⟩ →
            getPublicKeyForCaller env c s =
              ⟨.error .MalformedResponse, s, [.schnorrPublicKey [salt, c.bytes]]⟩) ∧
        (∀ salt arr, s.canisterSalt = some salt →
            env.pubKeyResp [salt, c.bytes] = ⟨true, some arr⟩ →
            (arr.length ≠ 32 →
                getPublicKeyForCaller env c s =
                  ⟨.error .MalformedResponse, s,
                    [.schnorrPublicKey [salt, c.bytes]]⟩) ∧
            (arr.length = 32 →
                getPublicKeyForCaller env c s =
                  ⟨.ok (toUint8Array arr),
                    { s with publicKeyCache :=
                        cacheInsert s.publicKeyCache c.text (toUint8Array arr) },
                    [.schnorrPublicKey [salt, c.bytes]]⟩ ∧
                (toUint8Array arr).length = 32 ∧
                getPublicKeyForCaller env c
                    { s with publicKeyCache :=
                        cacheInsert s.publicKeyCache c.text (toUint8Array arr) } =
                  ⟨.ok (toUint8Array arr),
                    { s with publicKeyCache :=
                        cacheInsert s.publicKeyCache c.text (toUint8Array arr) },
                    []⟩))) := by
  refine ⟨fun pk h => getPublicKeyForCaller_cache_hit env c s pk hc h,
    fun hmiss => ⟨?_, ?_, ?_⟩⟩
  · intro hsalt
    simp only [getPublicKeyForCaller, getAuthenticatedCaller_ok c hc, hmiss, hsalt]
  · intro salt hsalt hresp
    simp only [getPublicKeyForCaller, getAuthenticatedCaller_ok c hc, hmiss, hsalt, hresp]
    simp
  · intro salt arr hsalt hresp
    constructor
    · intro hlen
      simp only [getPublicKeyForCaller, getAuthenticatedCaller_ok c hc, hmiss,
        hsalt, hresp]
      simp [hlen]
    · intro hlen
      have hrun : getPublicKeyForCaller env c s =
          ⟨.ok (toUint8Array arr),
            { s with publicKeyCache :=
                cacheInsert s.publicKeyCache c.text (toUint8Array arr) },
            [.schnorrPublicKey [salt, c.bytes]]⟩ := by
        simp only [getPublicKeyForCaller, getAuthenticatedCaller_ok c hc, hmiss,
          hsalt, hresp]
        simp [hlen]
      refine ⟨hrun, by simp [toUint8Array, hlen], ?_⟩
      exact getPublicKeyForCaller_cache_hit env c _ _ hc
        (cacheGet_insert s.publicKeyCache c.text (toUint8Array arr))

/-- C7 witness: a cache miss with the salt present fetches, caches and
returns the provider's 32-byte key. -/
theorem c7_getPublicKey_spec_witness :
    getPublicKeyForCaller envGood pAlice stateInit =
      ⟨.ok (List.replicate 32 9),
        ⟨some (List.replicate 32 7), some pOwner,
          [("alice-principal", List.replicate 32 9)]⟩,
        [.schnorrPublicKey [List.replicate 32 7, [4, 5, 6]]]⟩ := by
  have h := (((c7_getPublicKey_spec envGood pAlice stateInit (by decide)).2
      rfl).2.2 (List.replicate 32 7) (List.replicate 32 9) rfl rfl).2 (by simp)
  rw [h.1]
  decide

/-- A successful `sign` result is a `Uint8Array`, i.e. a list of bytes. -/
theorem sign_ok_lt {env : Env} {c : Principal} {m : List Nat}
    {s : CanisterState} {sig : List Nat}
    (h : (sign env c m s).result = .ok sig) : ∀ b ∈ sig, b < 256 := by
  have h2 : ∃ arr, sig = toUint8Array arr := by
    revert h
    simp only [sign]
    repeat' split
    all_goals intro h
    all_goals first
      | exact Except.noConfusion h
      | exact ⟨_, (Except.ok.inj h).symm⟩
  obtain ⟨arr, harr⟩ := h2
  rw [harr]
  exact toUint8Array_lt arr

theorem signWithPublicKey_calls_le_two (env : Env) (c : Principal)
    (m : List Nat) (s : CanisterState) :
    (signWithPublicKey env c m s).calls.length ≤ 2 := by
  have h1 := sign_calls_le_one env c m s
  have h2 := getPublicKeyForCaller_calls_le_one env c (sign env c m s).state
  simp only [signWithPublicKey]
  repeat' split
  all_goals try dsimp only
  all_goals try simp only [List.length_append]
  all_goals omega

theorem signWithHex_calls_le_two (env : Env) (c : Principal)
    (m : List Nat) (s : CanisterState) :
    (signWithHex env c m s).calls.length ≤ 2 := by
  have h1 := sign_calls_le_one env c m s
  have h2 := getPublicKeyForCaller_calls_le_one env c (sign env c m s).state
  simp only [signWithHex]
  repeat' split
  all_goals try dsimp only
  all_goals try simp only [List.length_append]
  all_goals omega

/-- C8: `signWithPublicKey` and `signWithHex` surface the first failure of
`sign` / key retrieval; on success `signWithPublicKey` returns exactly
the signature of `sign` paired with the caller's public key, and `signWithHex`
additionally returns hex fields that are `0x`-prefixed, lowercase, two hex
characters per byte with no separators, decoding back to exactly the binary
signature (and, for cached keys consisting of bytes, the binary key); both
make at most the two provider calls their constituents require. -/
theorem c8_composed_consistency (env : Env) (c : Principal) (m : List Nat)
    (s : CanisterState) :
    (∀ e, (sign env c m s).result = .error e →
        (signWithPublicKey env c m s).result = .error e ∧
        (signWithHex env c m s).result = .error e) ∧
    (∀ sig e, (sign env c m s).result = .ok sig →
        (getPublicKeyForCaller env c s).result = .error e →
        (signWithPublicKey env c m s).result = .error e ∧
        (signWithHex env c m s).result = .error e) ∧
    (∀ sig pk, (sign env c m s).result = .ok sig →
        (getPublicKeyForCaller env c s).result = .ok pk →
        (signWithPublicKey env c m s).result = .ok (sig, pk) ∧
        (signWithHex env c m s).result =
          .ok ⟨sig, bytesToHex sig, pk, bytesToHex pk⟩ ∧
        hexWellFormed (bytesToHex sig) sig.length ∧
        hexWellFormed (bytesToHex pk) pk.length ∧
        hexDecode (bytesToHex sig) = sig ∧
        ((∀ b ∈ pk, b < 256) → hexDecode (bytesToHex pk) = pk)) ∧
    (signWithPublicKey env c m s).calls.length ≤ 2 ∧
    (signWithHex env c m s).calls.length ≤ 2 := by
  refine ⟨?_, ?_, ?_, signWithPublicKey_calls_le_two env c m s,
    signWithHex_calls_le_two env c m s⟩
  · intro e he
    constructor
    · simp only [signWithPublicKey, he]
    · simp only [signWithHex, he]
  · intro sig e hsig hpk
    constructor
    · simp only [signWithPublicKey, hsig, sign_state_eq, hpk]
    · simp only [signWithHex, hsig, sign_state_eq, hpk]
  · intro sig pk hsig hpk
    refine ⟨?_, ?_, bytesToHex_wellFormed sig, bytesToHex_wellFormed pk,
      bytesToHex_roundTrip sig (sign_ok_lt hsig),
      fun hb => bytesToHex_roundTrip pk hb⟩
    · simp only [signWithPublicKey, hsig, sign_state_eq, hpk]
    · simp only [signWithHex, hsig, sign_state_eq, hpk]

/-- C8 witness: a concrete successful composed signing. -/
theorem c8_composed_consistency_witness :
    (signWithPublicKey envGood pAlice [1] stateInit).result =
      .ok (List.replicate 64 5, List.replicate 32 9) ∧
    hexDecode (bytesToHex (List.replicate 64 5)) = List.replicate 64 5 := by
  have h := (c8_composed_consistency envGood pAlice [1] stateInit).2.2.1
    (List.replicate 64 5) (List.replicate 32 9) (by decide) (by decide)
  exact ⟨h.1, h.2.2.2.2.1⟩

/-- C10 witness: the owner clearing a non-empty cache twice. -/
theorem c10_clearCache_idempotent_witness :
    (clearPublicKeyCache pOwner stateCached).result = .ok true ∧
    (clearPublicKeyCache pOwner stateCached).state.publicKeyCache = [] ∧
    (clearPublicKeyCache pOwner
        ((clearPublicKeyCache pOwner stateCached).state)).result = .ok true ∧
    (clearPublicKeyCache pOwner
        ((clearPublicKeyCache pOwner stateCached).state)).state =
      (clearPublicKeyCache pOwner stateCached).state :=
  c10_clearCache_idempotent pOwner stateCached (by decide) (by decide)

end SubstrateWallet
